import Mathlib

/-!
Verification development for the multi-site HTML data-extraction engine
(src/html-data-selector.js and the report assembly in src/scraper-api-server.js).

The JavaScript source is shallowly embedded:
  * HTML documents are modelled as already-parsed DOM trees (the work of
    cheerio.load); extractors operate on the tree, as the source does
    through the cheerio selection API, which is modelled element by element.
  * JS numbers are modelled as exact rationals; float overflow and binary
    rounding are out of scope (all claims concern small decimal literals).
  * JS string length is modelled as the count of characters; the claims
    only involve BMP characters, where this agrees with UTF-16 .length.
  * Fallible JS operations (JSON.parse, assignment to an undeclared
    variable in strict mode) are modelled with Except / Option.
-/

namespace HtmlSel

/-! ## Character and string utilities (JS semantics) -/

/-- JS whitespace class, as used by the \s regex class and String.trim:
space, tab, newline, carriage return, vertical tab, form feed, NBSP. -/
def jsWs (c : Char) : Bool :=
  c = ' ' || c = '\t' || c = '\n' || c = '\r' ||
  c = Char.ofNat 11 || c = Char.ofNat 12 || c = Char.ofNat 160

def isDigit (c : Char) : Bool := '0' ≤ c && c ≤ '9'

/-- Does the list start with the given list (used for substring search). -/
def listStartsWith : List Char → List Char → Bool
  | [], _ => true
  | _ :: _, [] => false
  | a :: as, b :: bs => a = b && listStartsWith as bs

/-- Is the first list a contiguous part of the second (JS String.includes). -/
def listInfixOf (needle : List Char) : List Char → Bool
  | [] => needle.isEmpty
  | c :: cs => listStartsWith needle (c :: cs) || listInfixOf needle cs

/-- JS s.includes(sub). -/
def sContains (s sub : String) : Bool := listInfixOf sub.data s.data

/-- JS s.trim(): drop surrounding whitespace. -/
def sTrim (s : String) : String :=
  String.mk (((s.data.dropWhile jsWs).reverse.dropWhile jsWs).reverse)

/-- JS s.toLowerCase() (ASCII case folding suffices for the data involved). -/
def sLower (s : String) : String := String.mk (s.data.map Char.toLower)

/-- JS s.length, modelled as the character count (see header note). -/
def sLen (s : String) : Nat := s.data.length

/-- JS s.replace of every whitespace run by one space.
The boolean records whether the previous character was whitespace. -/
def collapseAux : Bool → List Char → List Char
  | _, [] => []
  | prevWs, c :: cs =>
    if jsWs c then
      if prevWs then collapseAux true cs
      else ' ' :: collapseAux true cs
    else c :: collapseAux false cs

def collapseWs (s : String) : String := String.mk (collapseAux false s.data)

/-- JS s.split with a one-character separator. -/
def splitOnChar (sep : Char) : List Char → List (List Char)
  | [] => [[]]
  | c :: cs =>
    if c = sep then [] :: splitOnChar sep cs
    else match splitOnChar sep cs with
      | [] => [[c]]
      | l :: ls => (c :: l) :: ls

def sSplitNl (s : String) : List String :=
  (splitOnChar '\n' s.data).map String.mk

/-- JS s.endsWith(suffix). -/
def sEndsWith (s suf : String) : Bool :=
  listStartsWith suf.data.reverse s.data.reverse

/-! ## Numeric parsing (JS parseFloat and the numeric regex captures) -/

/-- Numeric value of a digit list read in base 10. -/
def digitsToNat : List Char → Nat
  | [] => 0
  | c :: cs => digitsToNat cs + c.toNat.sub 48 * 10 ^ cs.length

/-- A finite JS number, kept as an un-normalized fraction so that kernel
evaluation never needs gcd.  Every number the extractors build has a
positive denominator by construction; its mathematical value is val. -/
structure JsNum where
  num : ℤ
  den : ℕ
deriving Repr, DecidableEq

def JsNum.val (x : JsNum) : ℚ := (x.num : ℚ) / (x.den : ℚ)

/-- Math.round(v * 100) / 100, the rounding step of extractPrice.
Math.round rounds half toward positive infinity, so for v = n / d with
d positive the result is floor((200 n + d) / (2 d)) hundredths. -/
def round2 (x : JsNum) : JsNum :=
  ⟨(200 * x.num + (x.den : ℤ)).fdiv (2 * (x.den : ℤ)), 100⟩

/-- A captured numeric token: digits, optionally a separator (.) or (,)
followed by digits.  This is the capture group of the price regexes. -/
structure NumTok where
  intPart : List Char
  sep : Option (Char × List Char)
deriving Repr, DecidableEq

/-- Value of the capture after the source strips commas and applies
parseFloat: a comma separator concatenates the digit groups (thousands
separator removed), a dot separator is a decimal point. -/
def tokVal (t : NumTok) : JsNum :=
  match t.sep with
  | none => ⟨digitsToNat t.intPart, 1⟩
  | some (c, frac) =>
    if c = ',' then ⟨digitsToNat (t.intPart ++ frac), 1⟩
    else ⟨digitsToNat t.intPart * 10 ^ frac.length + digitsToNat frac, 10 ^ frac.length⟩

/-- Read the capture of pattern digits ( [.,] digits )? (extractPrice). -/
def readTokC (cs : List Char) : Option (NumTok × List Char) :=
  let d1 := cs.takeWhile isDigit
  let r1 := cs.dropWhile isDigit
  if d1.isEmpty then none
  else
    match r1 with
    | c :: rest =>
      if c = '.' || c = ',' then
        let d2 := rest.takeWhile isDigit
        if d2.isEmpty then some (⟨d1, none⟩, r1)
        else some (⟨d1, some (c, d2)⟩, rest.dropWhile isDigit)
      else some (⟨d1, none⟩, r1)
    | [] => some (⟨d1, none⟩, [])

/-- Read the capture of pattern digits [.,]? digits* (the site regexes):
the separator is consumed even with no digits after it. -/
def readTokB (cs : List Char) : Option (NumTok × List Char) :=
  let d1 := cs.takeWhile isDigit
  let r1 := cs.dropWhile isDigit
  if d1.isEmpty then none
  else
    match r1 with
    | c :: rest =>
      if c = '.' || c = ',' then
        let d2 := rest.takeWhile isDigit
        some (⟨d1, some (c, d2)⟩, rest.dropWhile isDigit)
      else some (⟨d1, none⟩, r1)
    | [] => some (⟨d1, none⟩, [])

/-- Read the capture of pattern digits ( . digits )? (dot only, the
NaturesBasket and Zepto regexes). -/
def readTokA (cs : List Char) : Option (NumTok × List Char) :=
  let d1 := cs.takeWhile isDigit
  let r1 := cs.dropWhile isDigit
  if d1.isEmpty then none
  else
    match r1 with
    | '.' :: rest =>
      let d2 := rest.takeWhile isDigit
      if d2.isEmpty then some (⟨d1, none⟩, r1)
      else some (⟨d1, some ('.', d2)⟩, rest.dropWhile isDigit)
    | _ => some (⟨d1, none⟩, r1)

/-- Attempt of the regex rupee? \s* (digits ([.,] digits)?) anchored at the
start of the list (the pattern of extractPrice). -/
def matchCAt (cs : List Char) : Option NumTok :=
  let t1 := match cs with
    | '₹' :: r => r
    | _ => cs
  (readTokC (t1.dropWhile jsWs)).map (·.1)

/-- Leftmost match of the extractPrice pattern: the regex is tried at each
successive start index.  Fuel is the list length; the recursion only ever
drops one character at a time. -/
def findTokC : Nat → List Char → Option NumTok
  | 0, _ => none
  | _, [] => none
  | fuel + 1, c :: cs =>
    match matchCAt (c :: cs) with
    | some t => some t
    | none => findTokC fuel cs

/-- extractPrice (src/html-data-selector.js lines 780-793): first match of
rupee? \s* (digits ([.,] digits)?), comma stripped, parseFloat, rounded to
2 decimals via Math.round(x*100)/100; null when no match. -/
def extractPrice (s : String) : Option JsNum :=
  match findTokC s.data.length s.data with
  | some t => some (round2 (tokVal t))
  | none => none

/-- The characters of a captured numeric token, used to rebuild the full
match strings that the g-flag regexes hand to extractPrice. -/
def tokChars (t : NumTok) : List Char :=
  t.intPart ++ (match t.sep with
    | none => []
    | some (c, f) => c :: f)

/-- All matches of rupee \s* (digits [.,]? digits*) with the g flag
(the JioMart, Swiggy and stretched-DMart price regex), returned as the
full matched substrings, in order.  Fuel bounds the scan. -/
def scanB : Nat → List Char → List String
  | 0, _ => []
  | _, [] => []
  | fuel + 1, c :: cs =>
    if c = '₹' then
      let ws := cs.takeWhile jsWs
      match readTokB (cs.dropWhile jsWs) with
      | some (t, r) => String.mk ('₹' :: (ws ++ tokChars t)) :: scanB fuel r
      | none => scanB fuel cs
    else scanB fuel cs

/-- All matches of rupee \s* (digits (. digits)?) with the g flag
(the NaturesBasket and Zepto price regex), as full matched substrings. -/
def scanA : Nat → List Char → List String
  | 0, _ => []
  | _, [] => []
  | fuel + 1, c :: cs =>
    if c = '₹' then
      let ws := cs.takeWhile jsWs
      match readTokA (cs.dropWhile jsWs) with
      | some (t, r) => String.mk ('₹' :: (ws ++ tokChars t)) :: scanA fuel r
      | none => scanA fuel cs
    else scanA fuel cs

def priceMatchesB (s : String) : List String := scanB s.data.length s.data

def priceMatchesA (s : String) : List String := scanA s.data.length s.data

/-- First capture of rupee \s* (digits [.,]? digits*) without the g flag
(the stretched-DMart price match, which uses the capture group). -/
def firstCapB : Nat → List Char → Option NumTok
  | 0, _ => none
  | _, [] => none
  | fuel + 1, c :: cs =>
    if c = '₹' then
      match readTokB (cs.dropWhile jsWs) with
      | some (t, _) => some t
      | none => firstCapB fuel cs
    else firstCapB fuel cs

/-- Test of the regex rupee \s* digit (the hasPrice checks). -/
def hasRupeeNum : List Char → Bool
  | [] => false
  | c :: cs =>
    (c = '₹' && (match cs.dropWhile jsWs with
      | d :: _ => isDigit d
      | [] => false)) || hasRupeeNum cs

def sHasRupeeNum (s : String) : Bool := hasRupeeNum s.data

/-- JS parseFloat restricted to finite decimal notation: leading JS
whitespace, optional sign, digits with optional fraction, optional
well-formed exponent; none models NaN.  The Infinity literal and float
overflow or binary rounding are not modelled (no claim involves them). -/
def jsParseFloat (s : String) : Option JsNum :=
  let cs0 := s.data.dropWhile jsWs
  let sgn : ℤ := match cs0 with
    | '-' :: _ => -1
    | _ => 1
  let cs := match cs0 with
    | '-' :: r => r
    | '+' :: r => r
    | _ => cs0
  let d1 := cs.takeWhile isDigit
  let r1 := cs.dropWhile isDigit
  let d2 := match r1 with
    | '.' :: r => r.takeWhile isDigit
    | _ => []
  let r2 := match r1 with
    | '.' :: r => r.dropWhile isDigit
    | _ => r1
  if d1.isEmpty && d2.isEmpty then none
  else
    let baseNum : ℤ := digitsToNat d1 * 10 ^ d2.length + digitsToNat d2
    let baseDen : ℕ := 10 ^ d2.length
    let e : ℤ := match r2 with
      | c :: r =>
        if c = 'e' || c = 'E' then
          match r with
          | '-' :: rr =>
            if (rr.takeWhile isDigit).isEmpty then 0
            else -(digitsToNat (rr.takeWhile isDigit) : ℤ)
          | '+' :: rr =>
            if (rr.takeWhile isDigit).isEmpty then 0
            else (digitsToNat (rr.takeWhile isDigit) : ℤ)
          | rr =>
            if (rr.takeWhile isDigit).isEmpty then 0
            else (digitsToNat (rr.takeWhile isDigit) : ℤ)
        else 0
      | [] => 0
    if 0 ≤ e then some ⟨sgn * baseNum * 10 ^ e.toNat, baseDen⟩
    else some ⟨sgn * baseNum, baseDen * 10 ^ (-e).toNat⟩

example : extractPrice "₹1,234.50" = some ⟨123400, 100⟩ := by decide
example : extractPrice "no price here" = none := by decide
example : extractPrice "₹ 45.75" = some ⟨4575, 100⟩ := by decide
example : jsParseFloat "40.555" = some ⟨40555, 1000⟩ := by decide
example : jsParseFloat "  -2.5e1" = some ⟨-250, 10⟩ := by decide
example : jsParseFloat "abc" = none := by decide
example : priceMatchesB "x ₹45, ₹ 30 y" = ["₹45,", "₹ 30"] := by decide
example : priceMatchesA "₹45.5 and ₹30" = ["₹45.5", "₹30"] := by decide
example : sHasRupeeNum "ab ₹ 40" = true := by decide

/-! ## DOM model

An HTML document is modelled as the tree cheerio.load produces; the
selection operations the source uses (class, substring-attribute, tag,
descendant and :not selectors, find, closest, parent, first, text, attr)
are modelled one for one.  Selections are lists of cursors in document
order; a cursor carries the ancestor chain so that closest and parent
work. -/

inductive Node where
  | elem (tag : String) (attrs : List (String × String)) (children : List Node)
  | text (s : String)

def nodeTag : Node → String
  | .elem t _ _ => t
  | .text _ => ""

def nodeAttrs : Node → List (String × String)
  | .elem _ a _ => a
  | .text _ => []

def getAttr (n : Node) (k : String) : Option String :=
  (nodeAttrs n).lookup k

-- Text content: concatenation of all descendant text nodes, in order
-- (cheerio .text() on one element).
mutual
def nodeText : Node → String
  | .text s => s
  | .elem _ _ cs => nodesText cs
def nodesText : List Node → String
  | [] => ""
  | n :: ns => nodeText n ++ nodesText ns
end

/-- A cursor: a node together with its ancestor elements, nearest first. -/
structure Cur where
  anc : List Node
  node : Node

-- All element cursors of a tree in document (preorder) order.
mutual
def curs (anc : List Node) : Node → List Cur
  | .text _ => []
  | .elem t a cs => ⟨anc, .elem t a cs⟩ :: cursList (Node.elem t a cs :: anc) cs
def cursList (anc : List Node) : List Node → List Cur
  | [] => []
  | n :: ns => curs anc n ++ cursList anc ns
end

def Sel : Type := Cur → Bool

/-- Class attribute split into class names (CSS class matching). -/
def classList (n : Node) : List String :=
  (((getAttr n "class").getD "").data.splitOnP jsWs).map String.mk |>.filter (· ≠ "")

def selTag (t : String) : Sel := fun c => nodeTag c.node = t

def selClass (cls : String) : Sel := fun c => (classList c.node).contains cls

def selClassSub (sub : String) : Sel := fun c =>
  match getAttr c.node "class" with
  | some v => sContains v sub
  | none => false

def selAttrSub (k sub : String) : Sel := fun c =>
  match getAttr c.node k with
  | some v => sContains v sub
  | none => false

def selAttrEq (k v : String) : Sel := fun c => getAttr c.node k = some v

def selAttrIsGiven (k : String) : Sel := fun c => (getAttr c.node k).isSome

def selAnd (a b : Sel) : Sel := fun c => a c && b c

def selNot (a : Sel) : Sel := fun c => !a c

def selAny (ss : List Sel) : Sel := fun c => ss.any (fun s => s c)

/-- Cursors of the strict ancestors of a cursor, nearest first. -/
def ancCurs : List Node → List Cur
  | [] => []
  | a :: rest => ⟨rest, a⟩ :: ancCurs rest

/-- Descendant combinator A B: the element matches B and some strict
ancestor matches A. -/
def selDesc (sAnc sChild : Sel) : Sel := fun c =>
  sChild c && (ancCurs c.anc).any sAnc

/-- The root selection of a document. -/
def q (root : Node) (s : Sel) : List Cur := (curs [] root).filter s

/-- Strict-descendant cursors of one cursor. -/
def descs (c : Cur) : List Cur :=
  match c.node with
  | .elem t a cs => cursList (Node.elem t a cs :: c.anc) cs
  | .text _ => []

def concatMap (f : Cur → List Cur) : List Cur → List Cur
  | [] => []
  | c :: cs => f c ++ concatMap f cs

/-- selection.find(sel): matching descendants of every selected element. -/
def findIn (cs : List Cur) (s : Sel) : List Cur := (concatMap descs cs).filter s

def curText (c : Cur) : String := nodeText c.node

/-- .text() of a possibly empty single-element selection. -/
def optText : Option Cur → String
  | some c => curText c
  | none => ""

/-- element.closest(sel): nearest of the element itself and its ancestors
matching sel. -/
def closest (c : Cur) (s : Sel) : Option Cur :=
  (c :: ancCurs c.anc).find? (fun x => s x)

def parentCur (c : Cur) : Option Cur :=
  match c.anc with
  | [] => none
  | a :: rest => some ⟨rest, a⟩

/-! ## Products and site results -/

/-- A JS value sitting in a price field: null, NaN from parseFloat, a
finite number, or (for values copied straight from a JSON blob) some
other truthy non-numeric value. -/
inductive PVal where
  | null
  | nan
  | num (x : JsNum)
  | other
deriving Repr, DecidableEq

/-- Assignment of an extractPrice result (null on no match). -/
def PVal.ofOpt : Option JsNum → PVal
  | some x => .num x
  | none => .null

/-- Assignment of a parseFloat result (NaN on failure). -/
def PVal.ofParse : Option JsNum → PVal
  | some x => .num x
  | none => .nan

/-- JS truthiness of a price value (0 and NaN are falsy). -/
def PVal.truthy : PVal → Bool
  | .num x => x.num ≠ 0
  | .other => true
  | _ => false

/-- JS comparison value > 0 (false for null and NaN; .other never reaches
a comparison in the modelled code). -/
def PVal.gtZero : PVal → Bool
  | .num x => 0 < x.num
  | _ => false

structure Product where
  name : String
  price : PVal
  mrp : PVal
  website : String
deriving Repr, DecidableEq

structure SiteResult where
  website : String
  location : Option String
  products : List Product
  filename : String
deriving Repr, DecidableEq

/-- The apostrophe character, kept out of string literals. -/
def apos : Char := Char.ofNat 39

/-- The NaturesBasket site label used by the source. -/
def nbLabel : String := "Nature" ++ String.mk [apos] ++ "s Basket"

/-! ## DMart extractor (src/html-data-selector.js lines 13-110) -/

def dmartHeaderLoc (root : Node) : Option String :=
  match (q root (selAny
      [selDesc (selTag "header") (selClassSub "pincode"),
       selDesc (selTag "header") (selClassSub "location"),
       selDesc (selTag "header") (selClassSub "area")])).head? with
  | some el =>
    let t := collapseWs (sTrim (curText el))
    if t ≠ "" && sLen t < 100 then some t else none
  | none => none

def extractLocationFromDmart (root : Node) : Option String :=
  match (q root (selClass "header_pincode__KryhE")).head? with
  | some el =>
    let t := sTrim (collapseWs (sTrim (curText el)))
    -- the early return of the source: when the checks fail the code
    -- falls through to the header scan
    if t ≠ "" && sLen t < 100 then some t else dmartHeaderLoc root
  | none => dmartHeaderLoc root

def stripCommas (s : String) : String := String.mk (s.data.filter (· ≠ ','))

/-- One iteration of the vertical-card loop. -/
def dmartVStep (products : List Product) (c : Cur) : List Product :=
  let productName := sTrim (curText c)
  let productCard := (closest c (selClassSub "vertical-card_card")).toList
  let priceContainer := findIn productCard (selClass "vertical-card_price__OEmV3")
  let (price, mrp) :=
    if priceContainer.isEmpty then (PVal.null, PVal.null)
    else
      let priceSection := findIn priceContainer (selClass "vertical-card_price-left__1ecs8")
      let dmartPriceSection := findIn priceSection
        (selAnd (selTag "section") (selNot (selClass "vertical-card_strike-through__rRL1B")))
      let price :=
        match (findIn dmartPriceSection (selClass "vertical-card_amount__80Zwk")).head? with
        | some el =>
          if !(match getAttr el.node "style" with
               | some st => sContains st "line-through"
               | none => false) then
            PVal.ofParse (jsParseFloat (sTrim (curText el)))
          else PVal.null
        | none => PVal.null
      let mrp :=
        match (findIn priceSection
            (selDesc (selClass "vertical-card_strike-through__rRL1B")
              (selClass "vertical-card_amount__80Zwk"))).head? with
        | some el => PVal.ofParse (jsParseFloat (sTrim (curText el)))
        | none => PVal.null
      (price, mrp)
  if productName ≠ "" then
    products ++ [⟨productName, price, mrp, "DMart"⟩]
  else products

/-- One iteration of the stretched-card loop. -/
def dmartSStep (products : List Product) (c : Cur) : List Product :=
  let productName := sTrim (curText c)
  if productName ≠ "" && !products.any (·.name = productName) then
    let productCard := (closest c (selClassSub "stretched-card")).toList
    let priceText := nodesText (productCard.map (·.node))
    let price :=
      match firstCapB priceText.data.length priceText.data with
      | some t => PVal.ofParse (jsParseFloat (stripCommas (String.mk (tokChars t))))
      | none => PVal.null
    products ++ [⟨productName, price, PVal.null, "DMart"⟩]
  else products

def extractFromDmart (root : Node) (filename : String) : SiteResult :=
  let location := extractLocationFromDmart root
  let products := (q root (selClass "vertical-card_title__pMGg9")).foldl dmartVStep []
  let products := (q root (selClass "stretched-card_title__1mqeI")).foldl dmartSStep products
  { website := "DMart", location := location, products := products, filename := filename }

/-! ## Shared helpers of the remaining extractors -/

/-- The per-selector location scan shared by the JioMart, NaturesBasket,
Zepto (and Swiggy DOM) extractLocation functions: for each selector in
order, take the first matching element; return its trimmed text when it
is non-empty and under 100 characters, otherwise try the next selector. -/
def locFromSelectors (root : Node) : List Sel → Option String
  | [] => none
  | s :: rest =>
    match (q root s).head? with
    | some el =>
      let t := sTrim (curText el)
      if t ≠ "" && sLen t < 100 then some t else locFromSelectors root rest
    | none => locFromSelectors root rest

/-- The filter p !== null and p > 0 over extractPrice results. -/
def posFilter : List (Option JsNum) → List JsNum
  | [] => []
  | some x :: rest => if 0 < x.num then x :: posFilter rest else posFilter rest
  | none :: rest => posFilter rest

/-- The final dedup loop shared by NaturesBasket and Zepto: a Set of
lowercased trimmed names, keeping a product only when its key is new and
it passes the validation predicate. -/
def dedupPass (pred : Product → Bool) (seen : List String) : List Product → List Product
  | [] => []
  | p :: ps =>
    let norm := sTrim (sLower p.name)
    if !seen.contains norm && pred p then p :: dedupPass pred (norm :: seen) ps
    else dedupPass pred seen ps

/-! ## JioMart extractor (src/html-data-selector.js lines 115-221) -/

def jioExcluded : List String :=
  ["Home", "Shop By Category", "My Orders", "My Account", "Cart", "Login",
   "Sign Up", "Search", "Menu"]

def jioNameStop : List String :=
  ["home", "shop", "my", "cart", "login", "sign", "search", "menu"]

/-- mrp and price from the mapped extractPrice results: with more than one
match the first is MRP and the second price, otherwise the single match is
the price. -/
def pricesFromMatches (ms : List String) : PVal × PVal :=
  if ms.isEmpty then (PVal.null, PVal.null)
  else
    match ms.map extractPrice with
    | [] => (PVal.null, PVal.null)
    | [p] => (PVal.ofOpt p, PVal.null)
    | p0 :: p1 :: _ => (PVal.ofOpt p1, PVal.ofOpt p0)

def jioStep (products : List Product) (c : Cur) : List Product :=
  let elementText := sTrim (curText c)
  if jioExcluded.any (fun t => sContains elementText t && decide (sLen elementText < 50)) then
    products
  else
    let productName := sTrim (optText (findIn [c] (selAny
      [selClassSub "product-title", selClassSub "product-name",
       selClassSub "item-title", selClassSub "title"])).head?)
    let fallbackName :=
      if productName ≠ "" then productName
      else sTrim (optText (findIn [c] (selAny
        [selTag "h2", selTag "h3", selTag "h4", selTag "h5", selClassSub "name"])).head?)
    if fallbackName ≠ "" && sLen fallbackName > 5 &&
        !jioExcluded.any (fun t => sContains fallbackName t) &&
        !jioNameStop.contains (sLower fallbackName) then
      let priceEl := (findIn [c] (selAny
        [selClassSub "price", selClassSub "amount", selClassSub "cost"])).head?
      let pm :=
        match priceEl with
        | some el => pricesFromMatches (priceMatchesB (curText el))
        | none => pricesFromMatches (priceMatchesB (curText c))
      if !products.any (·.name = fallbackName) then
        products ++ [⟨fallbackName, pm.1, pm.2, "JioMart"⟩]
      else products
    else products

def extractLocationFromJioMart (root : Node) : Option String :=
  locFromSelectors root
    [selClassSub "location", selClassSub "pincode", selClassSub "area",
     selClassSub "address", selAttrSub "data-testid" "location"]

def extractFromJioMart (root : Node) (filename : String) : SiteResult :=
  let location := extractLocationFromJioMart root
  let products := (q root (selAny
    [selClassSub "product", selClassSub "item-card", selClassSub "jm-product",
     selAttrSub "data-testid" "product"])).foldl jioStep []
  { website := "JioMart", location := location, products := products, filename := filename }

/-! ## NaturesBasket extractor (src/html-data-selector.js lines 226-326) -/

def nbStrikeSel : Sel :=
  selAny [selTag "s", selTag "del", selAttrSub "style" "line-through",
    selAttrSub "style" "text-decoration: line-through",
    selClassSub "strike", selClassSub "line-through"]

/-- mrp and price from the positive filtered prices of a container, with
the strikethrough disambiguation of the source (both multi-price branches
assign the same way). -/
def nbPriceSplit (hasStrike : Bool) (prices : List JsNum) : PVal × PVal :=
  match prices with
  | [] => (PVal.null, PVal.null)
  | [p] => (PVal.num p, PVal.null)
  | p0 :: p1 :: _ =>
    if hasStrike then (PVal.num p1, PVal.num p0)
    else (PVal.num p1, PVal.num p0)

def nbStep (products : List Product) (c : Cur) : List Product :=
  let productName :=
    let h3 := sTrim (optText (findIn [c] (selTag "h3")).head?)
    if h3 ≠ "" then h3 else sTrim (curText c)
  if productName = "" || sLen productName < 3 then products
  else
    let container := (closest c (selAny
      [selTag "div", selTag "article", selTag "section", selTag "li"])).toList
    let containerText := nodesText (container.map (·.node))
    let prices := posFilter ((priceMatchesA containerText).map extractPrice)
    let hasStrike := !(findIn container nbStrikeSel).isEmpty
    let pm := nbPriceSplit hasStrike prices
    if productName ≠ "" && PVal.truthy pm.1 && sLen productName ≥ 3 then
      if !products.any (·.name = productName) then
        products ++ [⟨productName, pm.1, pm.2, nbLabel⟩]
      else products
    else products

def extractLocationFromNaturesBasket (root : Node) : Option String :=
  locFromSelectors root
    [selClassSub "location", selClassSub "pincode", selClassSub "area",
     selClassSub "address"]

def extractFromNaturesBasket (root : Node) (filename : String) : SiteResult :=
  let location := extractLocationFromNaturesBasket root
  let products := (q root (selAnd (selTag "a")
    (selAttrSub "href" "/product-detail/"))).foldl nbStep []
  let uniqueProducts := dedupPass (fun p => sLen p.name > 3) [] products
  { website := nbLabel, location := location, products := uniqueProducts,
    filename := filename }

/-! ## Zepto extractor (src/html-data-selector.js lines 331-511) -/

def zeptoStopNames : List String :=
  ["p3", "ad", "logo", "icon", "button", "arrow", "close", "menu", "search", "zepto"]

def zeptoImgExts : List String := [".png", ".jpg", ".jpeg", ".gif", ".svg"]

def zeptoStrikeSel : Sel :=
  selAny [selTag "s", selTag "del", selAttrSub "style" "line-through",
    selClassSub "strike"]

/-- The walk up the parent chain looking for a container whose text has a
price, at most 5 levels (the while loop of strategy 1). -/
def zWalk : Nat → Option Cur → Option Cur
  | _, none => none
  | 0, some c => some c
  | fuel + 1, some c =>
    if sHasRupeeNum (curText c) then some c
    else zWalk fuel (parentCur c)

/-- The regex test for a name made only of digits, whitespace, rupee signs
and dashes. -/
def onlyJunkChars (s : String) : Bool :=
  !s.data.isEmpty && s.data.all (fun c => isDigit c || jsWs c || c = '₹' || c = '-')

def zeptoStep1 (products : List Product) (c : Cur) : List Product :=
  let altName := sTrim ((getAttr c.node "alt").getD "")
  let productName :=
    if altName ≠ "" then altName else sTrim ((getAttr c.node "title").getD "")
  if productName = "" || sLen productName < 3 then products
  else if zeptoStopNames.contains (sLower productName) ||
      zeptoImgExts.any (fun e => sEndsWith (sLower productName) e) ||
      sLen productName < 5 then products
  else
    let walked := zWalk 5 (parentCur c)
    let container :=
      if !sHasRupeeNum (optText walked) then
        closest c (selAny [selTag "div", selTag "article", selTag "section"])
      else walked
    if !sHasRupeeNum (optText container) then products
    else
      let containerText := optText container
      let prices := posFilter ((priceMatchesA containerText).map extractPrice)
      let hasStrike := !(findIn container.toList zeptoStrikeSel).isEmpty
      let pm := nbPriceSplit hasStrike prices
      if productName ≠ "" && PVal.truthy pm.1 && sLen productName ≥ 3 then
        if !products.any (·.name = productName) then
          products ++ [⟨productName, pm.1, pm.2, "Zepto"⟩]
        else products
      else products

def zeptoStep2 (products : List Product) (c : Cur) : List Product :=
  let productCard := (closest c (selAny
    [selTag "div", selTag "article", selTag "section", selTag "a"])).toList
  let nameText := sTrim (curText c)
  let productName :=
    if nameText ≠ "" && sLen nameText ≥ 3 then nameText
    else
      let alt := sTrim ((match (findIn productCard
          (selAnd (selTag "img") (selAttrIsGiven "alt"))).head? with
        | some el => (getAttr el.node "alt").getD ""
        | none => ""))
      if alt ≠ "" then alt
      else sTrim ((match (findIn productCard
          (selAnd (selTag "img") (selAttrIsGiven "title"))).head? with
        | some el => (getAttr el.node "title").getD ""
        | none => ""))
  if productName = "" || sLen productName < 3 then products
  else
    let cardText := nodesText (productCard.map (·.node))
    let prices := posFilter ((priceMatchesA cardText).map extractPrice)
    let hasStrike := !(findIn productCard zeptoStrikeSel).isEmpty
    let pm := nbPriceSplit hasStrike prices
    if productName ≠ "" && PVal.truthy pm.1 && sLen productName ≥ 3 then
      if !products.any (·.name = productName) then
        products ++ [⟨productName, pm.1, pm.2, "Zepto"⟩]
      else products
    else products

def extractLocationFromZepto (root : Node) : Option String :=
  locFromSelectors root
    [selClassSub "location", selClassSub "pincode", selClassSub "area",
     selClassSub "address", selAttrSub "data-testid" "location"]

def zeptoFinalPred (p : Product) : Bool :=
  sLen p.name ≥ 3 && sLen p.name < 200 && !onlyJunkChars p.name && PVal.gtZero p.price

def extractFromZepto (root : Node) (filename : String) : SiteResult :=
  let location := extractLocationFromZepto root
  let products := (q root (selAny
    [selAnd (selTag "img") (selAttrIsGiven "alt"),
     selAnd (selTag "img") (selAttrIsGiven "title")])).foldl zeptoStep1 []
  let products :=
    if products.isEmpty then
      (q root (selAttrEq "data-slot-id" "ProductName")).foldl zeptoStep2 products
    else products
  let uniqueProducts := dedupPass zeptoFinalPred [] products
  { website := "Zepto", location := location, products := uniqueProducts,
    filename := filename }

/-! ## JSON values (the parsed window state blob of Swiggy pages) -/

inductive JVal where
  | null
  | bool (b : Bool)
  | num (x : JsNum)
  | str (s : String)
  | arr (elems : List JVal)
  | obj (fields : List (String × JVal))

/-- Property access v.k: the first binding of an object, undefined (none)
on every other non-null value.  Access on null throws and is handled at
each use site. -/
def jGet : JVal → String → Option JVal
  | .obj fs, k => fs.lookup k
  | _, _ => none

/-- JS truthiness of a possibly-undefined JSON value. -/
def jTruthy : Option JVal → Bool
  | none => false
  | some .null => false
  | some (.bool b) => b
  | some (.num x) => x.num ≠ 0
  | some (.str s) => s ≠ ""
  | some (.arr _) => true
  | some (.obj _) => true

def jGetOpt (v : Option JVal) (k : String) : Option JVal :=
  match v with
  | some w => jGet w k
  | none => none

/-- First truthy value of a JS chain a || b || ... (none when all falsy,
modelling the trailing || null). -/
def jFirstTruthy : List (Option JVal) → Option JVal
  | [] => none
  | v :: rest => if jTruthy v then v else jFirstTruthy rest

/-- The price value copied from a blob field chain.  A truthy numeric
field gives that number; a truthy non-numeric field is copied by the
source as-is and is modelled as the opaque non-number .other. -/
def pvalOfJVal : Option JVal → PVal
  | none => PVal.null
  | some (.num x) => PVal.num x
  | some _ => PVal.other

def jPriceChain (item : JVal) : PVal :=
  pvalOfJVal (jFirstTruthy [jGet item "price", jGet item "finalPrice", jGet item "sellingPrice"])

def jMrpChain (item : JVal) : PVal :=
  pvalOfJVal (jFirstTruthy [jGet item "mrp", jGet item "originalPrice"])

/-! ## Swiggy extractor (src/html-data-selector.js lines 516-775) -/

/-- The error thrown by strategy 2 of extractFromSwiggy: it assigns to
price and mrp, which are not declared in its callback, and the file is an
ES module, hence strict mode, so the assignment raises a ReferenceError
before any product of strategy 2 can be pushed. -/
inductive JsError where
  | refError
deriving Repr, DecidableEq

def swiggyExcluded : List String :=
  ["Careers", "Swiggy One", "Swiggy Instamart", "Home", "Cart", "Search",
   "Menu", "Login", "Sign", "Add", "Remove", "Quantity", "View Cart",
   "Checkout", "Delivery", "Pickup", "Filters", "Sort", "Categories"]

def swiggyNameStop : List String :=
  ["home", "cart", "search", "menu", "login", "sign", "add", "remove",
   "view", "checkout", "delivery", "pickup"]

def swiggyStrat2Stop : List String :=
  ["home", "cart", "search", "menu", "login", "sign", "add", "remove", "quantity"]

/-- price and mrp of strategy 1: the extractPrice results filtered to the
non-null ones; two or more give (mrp, price) = (first, second). -/
def swiggyPriceSplit (prices : List JsNum) : PVal × PVal :=
  match prices with
  | [] => (PVal.null, PVal.null)
  | [p] => (PVal.num p, PVal.null)
  | p0 :: p1 :: _ => (PVal.num p1, PVal.num p0)

def nonNullPrices (ms : List String) : List JsNum :=
  (ms.map extractPrice).filterMap id

def swiggyStep1 (products : List Product) (c : Cur) : List Product :=
  let productName := sTrim (optText (findIn [c] (selAny
    [selClassSub "title", selClassSub "name",
     selTag "h2", selTag "h3", selTag "h4"])).head?)
  if productName ≠ "" && sLen productName > 5 &&
      !swiggyExcluded.any (fun t => sContains productName t) &&
      !swiggyNameStop.contains (sLower productName) then
    let pm := swiggyPriceSplit (nonNullPrices (priceMatchesB (curText c)))
    if pm.1 ≠ PVal.null && !products.any (·.name = productName) then
      products ++ [⟨productName, pm.1, pm.2, "Swiggy"⟩]
    else products
  else products

/-- Does a block element drive strategy 2 into its price and mrp
assignments?  Strategy 2 never pushes a product: reaching the assignment
always raises first (see JsError.refError). -/
def swiggyStrat2Qualifies (products : List Product) (c : Cur) : Bool :=
  let text := sTrim (curText c)
  if sHasRupeeNum text && sLen text > 10 && sLen text < 200 then
    let lines := ((sSplitNl text).map sTrim).filter (· ≠ "")
    match lines.findIdx? (fun l => sHasRupeeNum l) with
    | some i =>
      if i > 0 then
        -- lines[i-1] is non-empty by the filter, so the || lines[0]
        -- fallback of the source never fires
        let productName := lines.getD (i - 1) ""
        productName ≠ "" && sLen productName > 5 &&
          !swiggyStrat2Stop.contains (sLower productName) &&
          !products.any (·.name = productName)
      else false
    | none => false
  else false

/-- One forEach pass over a blob item array.  A null item makes the
property access item.name throw a TypeError (the .error case), which the
enclosing catch of strategy 3 turns into keeping the products pushed so
far.  The source would also push an item whose truthy name is not a
string, carrying a non-string name into the result; only string names are
modelled (the data model of the page state has string names, and no claim
depends on the non-string corner). -/
def addBlobItems (products : List Product) : List JVal → Except (List Product) (List Product)
  | [] => .ok products
  | item :: rest =>
    match item with
    | .null => .error products
    | _ =>
      let name := jGet item "name"
      if jTruthy name then
        match name with
        | some (.str s) =>
          if !products.any (·.name = s) then
            addBlobItems (products ++ [⟨s, jPriceChain item, jMrpChain item, "Swiggy"⟩]) rest
          else addBlobItems products rest
        | _ => addBlobItems products rest
      else addBlobItems products rest

/-- The guarded walk state.key.data.items.forEach(...) used for the
searchPLV2 and categoryListingV2 paths.  A truthy non-array items has no
forEach, so the call throws a TypeError (the .error case). -/
def stepItems (products : List Product) (st : JVal) (key : String) :
    Except (List Product) (List Product) :=
  let s := jGet st key
  if jTruthy s then
    let d := jGetOpt s "data"
    if jTruthy d then
      let it := jGetOpt d "items"
      if jTruthy it then
        match it with
        | some (.arr xs) => addBlobItems products xs
        | _ => .error products
      else .ok products
    else .ok products
  else .ok products

/-- The instamart.searchResults path, guarded by Array.isArray. -/
def stepInstamart (products : List Product) (st : JVal) :
    Except (List Product) (List Product) :=
  let s := jGet st "instamart"
  if jTruthy s then
    match jGetOpt s "searchResults" with
    | some (.arr xs) => addBlobItems products xs
    | _ => .ok products
  else .ok products

-- findProductsInObject: the recursive deep walk, descending into arrays
-- everywhere but into object fields only when the key name contains
-- product or item.  It performs no throwing operation.
mutual
def fpioVal (products : List Product) : JVal → List Product
  | .arr xs => fpioArr products xs
  | .obj fs => fpioObj products fs
  | _ => products
def fpioArr (products : List Product) : List JVal → List Product
  | [] => products
  | item :: rest =>
    match item with
    | .arr xs =>
      -- an array item has no name property, so the qualifying check of
      -- the source is always false and it recurses into the array
      fpioArr (fpioArr products xs) rest
    | .obj fs =>
      if jTruthy (jGet (.obj fs) "name") &&
          (jTruthy (jGet (.obj fs) "price") || jTruthy (jGet (.obj fs) "finalPrice") ||
           jTruthy (jGet (.obj fs) "sellingPrice")) then
        match jGet (.obj fs) "name" with
        | some (.str s) =>
          if !products.any (·.name = s) then
            fpioArr (products ++ [⟨s, jPriceChain (.obj fs), jMrpChain (.obj fs), "Swiggy"⟩]) rest
          else fpioArr products rest
        | _ => fpioArr products rest
      else fpioArr (fpioObj products fs) rest
    | _ => fpioArr products rest
def fpioObj (products : List Product) : List (String × JVal) → List Product
  | [] => products
  | (k, v) :: rest =>
    if sContains (sLower k) "product" || sContains (sLower k) "item" then
      fpioObj (fpioVal products v) rest
    else fpioObj products rest
end

/-- Strategy 3 of extractFromSwiggy: the structured-data walk, run after
the DOM strategies on the products they accumulated.  A parse failure of
the blob is caught by the inner catch, keeping the DOM products; the deep
walk only runs when no product was found by anything before it. -/
def swiggyStrat3 (products : List Product) (blob : Option (Except String JVal)) :
    List Product :=
  match blob with
  | none => products
  | some (.error _) => products
  | some (.ok st) =>
    let r := do
      let p ← stepItems products st "searchPLV2"
      let p ← stepItems p st "categoryListingV2"
      stepInstamart p st
    match r with
    | .error p => p
    | .ok p => if p.isEmpty then fpioVal p st else p

/-- The raw aspects of a Swiggy page the source reads outside the DOM:
the window state blob matched with the multiline pattern of
extractFromSwiggy, the same blob matched with the single-line pattern of
extractLocationFromSwiggy (the two regexes differ, so the outcomes can),
and the userLocation object literal matched and then parsed by eval or
JSON.parse.  Each is none when the regex finds nothing and .error when
every parse of the captured text throws. -/
structure SwiggyRaw where
  dom : Node
  prodState : Option (Except String JVal)
  locState : Option (Except String JVal)
  appLocation : Option (Except String JVal)

/-- A truthy string field of a blob object.  The source returns the raw
field value; a truthy non-string field would be returned as a non-string
location and is not modelled (no claim depends on it). -/
def truthyStrField (v : JVal) (k : String) : Option String :=
  match jGet v k with
  | some (.str s) => if s ≠ "" then some s else none
  | _ => none

/-- The try block of extractLocationFromSwiggy strategy 1; .error is a
throw reaching the outer catch (a parse failure of the state blob), after
which the source proceeds to the DOM scan. -/
def swiggyLocStrat1 (raw : SwiggyRaw) : Except Unit (Option String) :=
  let appPart : Except Unit (Option String) :=
    match raw.appLocation with
    | some (.ok lo) =>
      match truthyStrField lo "address" with
      | some a => .ok (some a)
      | none =>
        match truthyStrField lo "annotation" with
        | some a => .ok (some a)
        | none => .ok none
    | some (.error _) => .ok none
    | none => .ok none
  match raw.locState with
  | some (.error _) => .error ()
  | some (.ok st) =>
    match jGet st "userLocation" with
    | some ul =>
      if jTruthy (some ul) then
        match truthyStrField ul "address" with
        | some a => .ok (some a)
        | none =>
          match truthyStrField ul "annotation" with
          | some a => .ok (some a)
          | none => appPart
      else appPart
    | none => appPart
  | none => appPart

/-- The DOM selector scan of extractLocationFromSwiggy: unlike the other
sites it also requires the text to be longer than 3 characters. -/
def swiggyLocScan (root : Node) : List Sel → Option String
  | [] => none
  | s :: rest =>
    match (q root s).head? with
    | some el =>
      let t := sTrim (curText el)
      if t ≠ "" && sLen t > 3 && sLen t < 100 then some t
      else swiggyLocScan root rest
    | none => swiggyLocScan root rest

def swiggyLocSelectors : List Sel :=
  [selClassSub "location", selClassSub "pincode", selClassSub "area",
   selClassSub "address", selAttrSub "data-testid" "location",
   selAttrSub "aria-label" "location", selAttrSub "aria-label" "address"]

def extractLocationFromSwiggy (raw : SwiggyRaw) : Option String :=
  match swiggyLocStrat1 raw with
  | .ok (some l) => some l
  | .ok none => swiggyLocScan raw.dom swiggyLocSelectors
  | .error _ => swiggyLocScan raw.dom swiggyLocSelectors

/-- Strategy 1: the data-testid product scan. -/
def swiggyTier1 (root : Node) : List Product :=
  (q root (selAny
    [selAttrSub "data-testid" "product", selAttrSub "data-testid" "item-card",
     selAttrSub "data-testid" "search-item"])).foldl swiggyStep1 []

/-- Does strategy 2, scanning every div, section and article, reach its
undeclared-variable assignment and so throw? -/
def swiggyTier2Throws (root : Node) (products : List Product) : Bool :=
  (q root (selAny [selTag "div", selTag "section", selTag "article"])).any
    (swiggyStrat2Qualifies products)

def extractFromSwiggy (raw : SwiggyRaw) (filename : String) :
    Except JsError SiteResult :=
  let location := extractLocationFromSwiggy raw
  let p1 := swiggyTier1 raw.dom
  if swiggyTier2Throws raw.dom p1 then
    .error JsError.refError
  else
    .ok { website := "Swiggy", location := location,
          products := swiggyStrat3 p1 raw.prodState, filename := filename }

/-! ## File routing (src/html-data-selector.js lines 798-925) -/

/-- An HTML file as the extractors see it: its name and its content in the
already-parsed forms the source derives from the raw text (readFileSync is
abstracted to providing these). -/
structure HtmlFile where
  name : String
  dom : Node
  prodState : Option (Except String JVal)
  locState : Option (Except String JVal)
  appLocation : Option (Except String JVal)

def determineWebsite (filename : String) : Option String :=
  let lower := sLower filename
  if sContains lower "dmart" then some "dmart"
  else if sContains lower "jiomart" then some "jiomart"
  else if sContains lower "naturesbasket" then some "naturesbasket"
  else if sContains lower "zepto" then some "zepto"
  else if sContains lower "swiggy" then some "swiggy"
  else none

def swiggyRawOf (f : HtmlFile) : SwiggyRaw :=
  ⟨f.dom, f.prodState, f.locState, f.appLocation⟩

/-- extractDataFromFile: route by filename; unknown site gives null, and
the try/catch around the body turns any thrown error into null. -/
def extractDataFromFile (f : HtmlFile) : Option SiteResult :=
  match determineWebsite f.name with
  | none => none
  | some w =>
    if w = "dmart" then some (extractFromDmart f.dom f.name)
    else if w = "jiomart" then some (extractFromJioMart f.dom f.name)
    else if w = "naturesbasket" then some (extractFromNaturesBasket f.dom f.name)
    else if w = "zepto" then some (extractFromZepto f.dom f.name)
    else if w = "swiggy" then
      match extractFromSwiggy (swiggyRawOf f) f.name with
      | .ok r => some r
      | .error _ => none
    else none

/-- extractDataFromAllFiles over the directory listing, abstracted to the
given file list (the root-directory Swiggy merge is an I/O concern of the
output directory layout): keep the .html files, extract each, skip the
null results, never aborting the batch. -/
def extractDataFromAllFiles (files : List HtmlFile) : List SiteResult :=
  (files.filter (fun f => sEndsWith f.name ".html")).foldl
    (fun results f =>
      match extractDataFromFile f with
      | some r => results ++ [r]
      | none => results) []

/-! ## Report assembly (src/scraper-api-server.js lines 324-387) -/

/-- What extractDataFromHtml did for one orchestrator result (the
orchestrator itself is an excluded collaborator). -/
inductive ExtractOutcome where
  | ok (r : SiteResult)
  | nullish
  | threw (msg : String)

/-- One per-site result of the excluded orchestrator, with the extraction
outcome on its html. -/
structure OrchResult where
  website : String
  success : Bool
  hasHtml : Bool
  errMsg : Option String
  extraction : ExtractOutcome

/-- One entry of the extractedData array of the job result. -/
structure ApiEntry where
  website : String
  products : List Product
  error : Option String

/-- The per-result branch of the scrapeInBackground loop. -/
def entryOf (r : OrchResult) : ApiEntry :=
  if r.success && r.hasHtml then
    match r.extraction with
    | .ok ex => ⟨ex.website, ex.products, none⟩
    | .nullish => ⟨r.website, [], some "Product extraction failed"⟩
    | .threw m => ⟨r.website, [], some ("Extraction error: " ++ m)⟩
  else ⟨r.website, [], some (r.errMsg.getD "Scraping failed")⟩

structure JobSummary where
  totalWebsites : Nat
  successful : Nat
  failed : Nat
  totalProducts : Nat

structure JobResult where
  data : List ApiEntry
  summary : JobSummary

/-- The job.result assembly of scrapeInBackground.  totalProducts is the
reduce over site.products?.length || 0: products is present on every
entry, and || 0 maps a zero length to the literal 0. -/
def mkJobResult (results : List OrchResult) : JobResult :=
  let extractedData := results.map entryOf
  { data := extractedData,
    summary :=
      { totalWebsites := results.length,
        successful := (results.filter (·.success)).length,
        failed := (results.filter (fun r => !r.success)).length,
        totalProducts := extractedData.foldl
          (fun sum site =>
            sum + (if site.products.length = 0 then 0 else site.products.length)) 0 } }

/-! ## Well-formedness of extracted prices -/

/-- A price satisfying the spec data model: non-negative and equal to a
whole number of hundredths (at most 2 decimal places). -/
def twoDecimal (x : JsNum) : Prop :=
  0 ≤ x.val ∧ ∃ n : ℤ, x.val = (n : ℚ) / 100

lemma twoDecimal_of (x : JsNum) (h1 : 0 ≤ x.num) (h2 : x.den = 100) :
    twoDecimal x := by
  constructor
  · unfold JsNum.val
    apply div_nonneg
    · exact_mod_cast h1
    · positivity
  · refine ⟨x.num, ?_⟩
    rw [JsNum.val, h2]
    norm_num

lemma tokVal_num_nonneg (t : NumTok) : 0 ≤ (tokVal t).num := by
  rcases t with ⟨d1, _ | ⟨c, f⟩⟩
  · simp only [tokVal]
    positivity
  · simp only [tokVal]
    split <;> positivity

lemma round2_num_nonneg (x : JsNum) (h : 0 ≤ x.num) : 0 ≤ (round2 x).num := by
  apply Int.fdiv_nonneg
  · have : (0 : ℤ) ≤ (x.den : ℤ) := Int.natCast_nonneg _
    nlinarith
  · positivity

theorem extractPrice_spec (s : String) (x : JsNum)
    (h : extractPrice s = some x) : 0 ≤ x.num ∧ x.den = 100 := by
  unfold extractPrice at h
  rcases hf : findTokC s.data.length s.data with _ | t
  · rw [hf] at h
    simp at h
  · rw [hf] at h
    simp only [Option.some.injEq] at h
    subst h
    exact ⟨round2_num_nonneg _ (tokVal_num_nonneg t), rfl⟩

/-- A price value as stored in a product: null, or a well-formed number. -/
def pvalWf (v : PVal) : Prop :=
  v = PVal.null ∨ ∃ x, v = PVal.num x ∧ twoDecimal x

lemma pvalWf_null : pvalWf PVal.null := Or.inl rfl

lemma pvalWf_ofOpt_extractPrice (m : String) :
    pvalWf (PVal.ofOpt (extractPrice m)) := by
  rcases h : extractPrice m with _ | x
  · exact Or.inl rfl
  · obtain ⟨h1, h2⟩ := extractPrice_spec m x h
    exact Or.inr ⟨x, rfl, twoDecimal_of x h1 h2⟩

lemma pricesFromMatches_wf (ms : List String) :
    pvalWf (pricesFromMatches ms).1 ∧ pvalWf (pricesFromMatches ms).2 := by
  unfold pricesFromMatches
  split
  · exact ⟨pvalWf_null, pvalWf_null⟩
  · rcases h : ms.map extractPrice with _ | ⟨p, _ | ⟨p1, rest⟩⟩
    · simp only [h]
      exact ⟨pvalWf_null, pvalWf_null⟩
    · have hp : ∃ m, extractPrice m = p := by
        have hmem : p ∈ ms.map extractPrice := by
          rw [h]; exact List.mem_cons_self _ _
        obtain ⟨m, _, hm⟩ := List.mem_map.mp hmem
        exact ⟨m, hm⟩
      obtain ⟨m, hm⟩ := hp
      simp only [h]
      exact ⟨hm ▸ pvalWf_ofOpt_extractPrice m, pvalWf_null⟩
    · have hp : ∃ m, extractPrice m = p := by
        have hmem : p ∈ ms.map extractPrice := by
          rw [h]; exact List.mem_cons_self _ _
        obtain ⟨m, _, hm⟩ := List.mem_map.mp hmem
        exact ⟨m, hm⟩
      have hp1 : ∃ m, extractPrice m = p1 := by
        have hmem : p1 ∈ ms.map extractPrice := by
          rw [h]; exact List.mem_cons_of_mem _ (List.mem_cons_self _ _)
        obtain ⟨m, _, hm⟩ := List.mem_map.mp hmem
        exact ⟨m, hm⟩
      obtain ⟨m, hm⟩ := hp
      obtain ⟨m1, hm1⟩ := hp1
      simp only [h]
      exact ⟨hm1 ▸ pvalWf_ofOpt_extractPrice m1, hm ▸ pvalWf_ofOpt_extractPrice m⟩

lemma posFilter_mem : ∀ {l : List (Option JsNum)} {x : JsNum},
    x ∈ posFilter l → some x ∈ l ∧ 0 < x.num := by
  intro l
  induction l with
  | nil => intro x h; simp [posFilter] at h
  | cons o tl ih =>
    intro x h
    rcases o with _ | y
    · obtain ⟨h1, h2⟩ := ih (by simpa [posFilter] using h)
      exact ⟨List.mem_cons_of_mem _ h1, h2⟩
    · simp only [posFilter] at h
      split at h
      · rcases List.mem_cons.mp h with rfl | h
        · exact ⟨List.mem_cons_self _ _, by assumption⟩
        · obtain ⟨h1, h2⟩ := ih h
          exact ⟨List.mem_cons_of_mem _ h1, h2⟩
      · obtain ⟨h1, h2⟩ := ih h
        exact ⟨List.mem_cons_of_mem _ h1, h2⟩

/-- Every survivor of the positive filter over extractPrice results is a
well-formed positive price in hundredths. -/
lemma posFilter_extractPrice_spec (ms : List String) :
    ∀ x ∈ posFilter (ms.map extractPrice), 0 < x.num ∧ x.den = 100 := by
  intro x hx
  obtain ⟨hmem, hpos⟩ := posFilter_mem hx
  obtain ⟨m, _, hm⟩ := List.mem_map.mp hmem
  exact ⟨hpos, (extractPrice_spec m x hm).2⟩

lemma nbPriceSplit_fst (hs : Bool) (ps : List JsNum) :
    (nbPriceSplit hs ps).1 = PVal.null ∨
      ∃ x ∈ ps, (nbPriceSplit hs ps).1 = PVal.num x := by
  rcases ps with _ | ⟨p, _ | ⟨p1, rest⟩⟩
  · exact Or.inl rfl
  · exact Or.inr ⟨p, List.mem_cons_self _ _, rfl⟩
  · refine Or.inr ⟨p1, List.mem_cons_of_mem _ (List.mem_cons_self _ _), ?_⟩
    simp only [nbPriceSplit]
    split <;> rfl

lemma nbPriceSplit_snd (hs : Bool) (ps : List JsNum) :
    (nbPriceSplit hs ps).2 = PVal.null ∨
      ∃ x ∈ ps, (nbPriceSplit hs ps).2 = PVal.num x := by
  rcases ps with _ | ⟨p, _ | ⟨p1, rest⟩⟩
  · exact Or.inl rfl
  · exact Or.inl rfl
  · refine Or.inr ⟨p, List.mem_cons_self _ _, ?_⟩
    simp only [nbPriceSplit]
    split <;> rfl

/-- Fold invariant preservation. -/
lemma foldl_inv {α β : Type} {P : β → Prop} {step : β → α → β}
    (h : ∀ b a, P b → P (step b a)) :
    ∀ (l : List α) (b : β), P b → P (l.foldl step b) := by
  intro l
  induction l with
  | nil => exact fun b hb => hb
  | cons a tl ih => exact fun b hb => ih _ (h b a hb)

lemma mem_append_one {p x : Product} {acc : List Product} :
    p ∈ acc ++ [x] → p ∈ acc ∨ p = x := by
  intro h
  rcases List.mem_append.mp h with h | h
  · exact Or.inl h
  · exact Or.inr (List.mem_singleton.mp h)

/-- The first component of the NaturesBasket or Zepto price split, when
truthy, is a positive well-formed price in hundredths. -/
lemma nbSplit_price_ok {hs : Bool} {ms : List String}
    (htr : PVal.truthy (nbPriceSplit hs (posFilter (ms.map extractPrice))).1 = true) :
    ∃ x, (nbPriceSplit hs (posFilter (ms.map extractPrice))).1 = PVal.num x ∧
      0 < x.num ∧ x.den = 100 := by
  rcases nbPriceSplit_fst hs (posFilter (ms.map extractPrice)) with hnull | ⟨x, hx, heq⟩
  · rw [hnull] at htr
    simp [PVal.truthy] at htr
  · obtain ⟨h1, h2⟩ := posFilter_extractPrice_spec ms x hx
    exact ⟨x, heq, h1, h2⟩

lemma nbSplit_mrp_ok (hs : Bool) (ms : List String) :
    pvalWf (nbPriceSplit hs (posFilter (ms.map extractPrice))).2 := by
  rcases nbPriceSplit_snd hs (posFilter (ms.map extractPrice)) with hnull | ⟨x, hx, heq⟩
  · rw [hnull]
    exact pvalWf_null
  · obtain ⟨h1, h2⟩ := posFilter_extractPrice_spec ms x hx
    rw [heq]
    exact Or.inr ⟨x, rfl, twoDecimal_of x (le_of_lt h1) h2⟩

/-! ## Dedup pass lemmas -/

lemma dedupPass_subset (pred : Product → Bool) :
    ∀ (l : List Product) (seen : List String) (p : Product),
      p ∈ dedupPass pred seen l → p ∈ l := by
  intro l
  induction l with
  | nil => intro seen p h; simp [dedupPass] at h
  | cons a tl ih =>
    intro seen p h
    simp only [dedupPass] at h
    split at h
    · rcases List.mem_cons.mp h with rfl | h
      · exact List.mem_cons_self _ _
      · exact List.mem_cons_of_mem _ (ih _ _ h)
    · exact List.mem_cons_of_mem _ (ih _ _ h)

lemma dedupPass_pred (pred : Product → Bool) :
    ∀ (l : List Product) (seen : List String) (p : Product),
      p ∈ dedupPass pred seen l → pred p = true := by
  intro l
  induction l with
  | nil => intro seen p h; simp [dedupPass] at h
  | cons a tl ih =>
    intro seen p h
    simp only [dedupPass] at h
    split at h
    · next hcond =>
      rcases List.mem_cons.mp h with rfl | h
      · have hc := hcond
        simp only [Bool.and_eq_true] at hc
        exact hc.2
      · exact ih _ _ h
    · exact ih _ _ h

lemma dedupPass_not_seen (pred : Product → Bool) :
    ∀ (l : List Product) (seen : List String) (p : Product),
      p ∈ dedupPass pred seen l →
      seen.contains (sTrim (sLower p.name)) = false := by
  intro l
  induction l with
  | nil => intro seen p h; simp [dedupPass] at h
  | cons a tl ih =>
    intro seen p h
    simp only [dedupPass] at h
    split at h
    · next hcond =>
      rcases List.mem_cons.mp h with rfl | h
      · have hc := hcond
        simp only [Bool.and_eq_true] at hc
        simpa using hc.1
      · have h2 := ih _ _ h
        simp only [List.contains_cons, Bool.or_eq_false_iff] at h2
        exact h2.2
    · exact ih _ _ h

lemma dedupPass_pairwise (pred : Product → Bool) :
    ∀ (l : List Product) (seen : List String),
      (dedupPass pred seen l).Pairwise
        (fun a b => sTrim (sLower a.name) ≠ sTrim (sLower b.name)) := by
  intro l
  induction l with
  | nil => intro seen; simp [dedupPass]
  | cons a tl ih =>
    intro seen
    simp only [dedupPass]
    split
    · refine List.Pairwise.cons ?_ (ih _)
      intro b hb
      have h2 := dedupPass_not_seen pred tl _ b hb
      simp only [List.contains_cons, Bool.or_eq_false_iff] at h2
      intro hab
      have := h2.1
      simp only [beq_eq_false_iff_ne, ne_eq] at this
      exact this hab.symm
    · exact ih _

/-! ## Per-extractor invariants -/

/-- Every product has a null-or-well-formed price and mrp. -/
def wfInv (acc : List Product) : Prop :=
  ∀ p ∈ acc, pvalWf p.price ∧ pvalWf p.mrp

/-- Every product has a positive well-formed price and a null-or-well-formed
mrp (the NaturesBasket and Zepto push discipline). -/
def posInv (acc : List Product) : Prop :=
  ∀ p ∈ acc,
    (∃ x, p.price = PVal.num x ∧ 0 < x.num ∧ x.den = 100) ∧ pvalWf p.mrp

lemma jioStep_wf (acc : List Product) (c : Cur) (h : wfInv acc) :
    wfInv (jioStep acc c) := by
  intro p hp
  simp only [jioStep] at hp
  repeat' split at hp
  all_goals try exact h p hp
  all_goals
    rcases mem_append_one hp with hp | rfl
    · exact h p hp
    · exact ⟨(pricesFromMatches_wf _).1, (pricesFromMatches_wf _).2⟩

set_option maxHeartbeats 2000000 in
lemma nbStep_pos (acc : List Product) (c : Cur) (h : posInv acc) :
    posInv (nbStep acc c) := by
  intro p hp
  simp only [nbStep] at hp
  repeat' split at hp
  all_goals try exact h p hp
  all_goals
    rcases mem_append_one hp with hp | rfl
    · exact h p hp
    · refine ⟨nbSplit_price_ok ?_, nbSplit_mrp_ok _ _⟩
      simp only [Bool.and_eq_true] at *
      tauto

set_option maxHeartbeats 2000000 in
lemma zeptoStep1_pos (acc : List Product) (c : Cur) (h : posInv acc) :
    posInv (zeptoStep1 acc c) := by
  intro p hp
  simp only [zeptoStep1] at hp
  repeat' split at hp
  all_goals try exact h p hp
  all_goals
    rcases mem_append_one hp with hp | rfl
    · exact h p hp
    · refine ⟨nbSplit_price_ok ?_, nbSplit_mrp_ok _ _⟩
      simp only [Bool.and_eq_true] at *
      tauto

set_option maxHeartbeats 2000000 in
lemma zeptoStep2_pos (acc : List Product) (c : Cur) (h : posInv acc) :
    posInv (zeptoStep2 acc c) := by
  intro p hp
  simp only [zeptoStep2] at hp
  repeat' split at hp
  all_goals try exact h p hp
  all_goals
    rcases mem_append_one hp with hp | rfl
    · exact h p hp
    · refine ⟨nbSplit_price_ok ?_, nbSplit_mrp_ok _ _⟩
      simp only [Bool.and_eq_true] at *
      tauto

/-! ## Location well-formedness -/

/-- The location bound of the data model: absent, or a non-empty string of
fewer than 100 characters. -/
def locWf (o : Option String) : Prop :=
  o = none ∨ ∃ s, o = some s ∧ s ≠ "" ∧ sLen s < 100

lemma locFromSelectors_wf (root : Node) :
    ∀ sels, locWf (locFromSelectors root sels) := by
  intro sels
  induction sels with
  | nil => exact Or.inl rfl
  | cons s rest ih =>
    simp only [locFromSelectors]
    split
    · split
      · next hcond =>
        simp only [Bool.and_eq_true, decide_eq_true_eq] at hcond
        exact Or.inr ⟨_, rfl, hcond.1, hcond.2⟩
      · exact ih
    · exact ih

lemma swiggyLocScan_wf (root : Node) :
    ∀ sels, locWf (swiggyLocScan root sels) := by
  intro sels
  induction sels with
  | nil => exact Or.inl rfl
  | cons s rest ih =>
    simp only [swiggyLocScan]
    split
    · split
      · next hcond =>
        simp only [Bool.and_eq_true, decide_eq_true_eq] at hcond
        exact Or.inr ⟨_, rfl, hcond.1.1, hcond.2⟩
      · exact ih
    · exact ih

lemma dmartHeaderLoc_wf (root : Node) : locWf (dmartHeaderLoc root) := by
  simp only [dmartHeaderLoc]
  repeat' split
  all_goals first
  | exact Or.inl rfl
  | (next hcond =>
      simp only [Bool.and_eq_true, decide_eq_true_eq] at hcond
      exact Or.inr ⟨_, rfl, hcond.1, hcond.2⟩)

lemma dmartLoc_wf (root : Node) : locWf (extractLocationFromDmart root) := by
  simp only [extractLocationFromDmart]
  repeat' split
  all_goals first
  | exact dmartHeaderLoc_wf root
  | (next hcond =>
      simp only [Bool.and_eq_true, decide_eq_true_eq] at hcond
      exact Or.inr ⟨_, rfl, hcond.1, hcond.2⟩)

/-! ## Name dedup invariants of the fold steps -/

/-- No two products share the exact same name. -/
def namesInv (acc : List Product) : Prop :=
  acc.Pairwise (fun a b => a.name ≠ b.name)

lemma namesInv_push {acc : List Product} {x : Product}
    (h : namesInv acc)
    (hnew : (!acc.any fun p => p.name = x.name) = true) :
    namesInv (acc ++ [x]) := by
  rw [namesInv, List.pairwise_append]
  refine ⟨h, List.pairwise_singleton _ _, ?_⟩
  intro a ha b hb
  rw [List.mem_singleton] at hb
  subst hb
  simp only [Bool.not_eq_true', List.any_eq_false] at hnew
  simpa using hnew a ha

lemma jioStep_names (acc : List Product) (c : Cur) (h : namesInv acc) :
    namesInv (jioStep acc c) := by
  simp only [jioStep]
  repeat' split
  all_goals try exact h
  all_goals
    apply namesInv_push h
    assumption

/-! ## Extractor-level characterizations -/

lemma val_pos_of (x : JsNum) (h1 : 0 < x.num) (h2 : x.den = 100) :
    0 < x.val := by
  rw [JsNum.val, h2]
  have : (0 : ℚ) < (x.num : ℚ) := by exact_mod_cast h1
  positivity

lemma posInv_nil : posInv [] := by
  intro p hp
  simp at hp

lemma wfInv_nil : wfInv [] := by
  intro p hp
  simp at hp

lemma namesInv_nil : namesInv [] := List.Pairwise.nil

/-- The Zepto result is the final dedup pass over a product list built
with the positive-price push discipline. -/
lemma zepto_underlying (root : Node) (f : String) :
    ∃ l, (extractFromZepto root f).products = dedupPass zeptoFinalPred [] l ∧
      posInv l := by
  refine ⟨_, rfl, ?_⟩
  have base : posInv ((q root (selAny
      [selAnd (selTag "img") (selAttrIsGiven "alt"),
       selAnd (selTag "img") (selAttrIsGiven "title")])).foldl zeptoStep1 []) :=
    foldl_inv zeptoStep1_pos _ _ posInv_nil
  split
  · exact foldl_inv zeptoStep2_pos _ _ base
  · exact base

/-- The NaturesBasket result is the final dedup pass over a product list
built with the positive-price push discipline. -/
lemma nb_underlying (root : Node) (f : String) :
    ∃ l, (extractFromNaturesBasket root f).products =
        dedupPass (fun p => sLen p.name > 3) [] l ∧ posInv l := by
  exact ⟨_, rfl, foldl_inv nbStep_pos _ _ posInv_nil⟩

lemma jio_products_eq (root : Node) (f : String) :
    (extractFromJioMart root f).products = (q root (selAny
      [selClassSub "product", selClassSub "item-card", selClassSub "jm-product",
       selAttrSub "data-testid" "product"])).foldl jioStep [] := rfl

lemma jio_wf (root : Node) (f : String) :
    wfInv (extractFromJioMart root f).products := by
  rw [jio_products_eq]
  exact foldl_inv jioStep_wf _ _ wfInv_nil

lemma jio_names (root : Node) (f : String) :
    namesInv (extractFromJioMart root f).products := by
  rw [jio_products_eq]
  exact foldl_inv jioStep_names _ _ namesInv_nil

/-- Positive well-formed price of every NaturesBasket or Zepto survivor. -/
lemma posInv_dedup {pred : Product → Bool} {l : List Product}
    (h : posInv l) (p : Product) (hp : p ∈ dedupPass pred [] l) :
    (∃ x, p.price = PVal.num x ∧ 0 < x.num ∧ x.den = 100) ∧ pvalWf p.mrp :=
  h p (dedupPass_subset pred l [] p hp)

/-! ## Concrete documents used by scenario and counterexample theorems -/

def emptyDom : Node := .elem "html" [] []

/-- The C9 scenario document with the class names written in the spec. -/
def c9doc : Node :=
  .elem "div" [] [
    .elem "div" [("class", "vertical-card_title__x")] [.text "Potato 1kg"],
    .elem "div" [("class", "vertical-card_price__y")] [
      .elem "span" [("class", "vertical-card_amount__z")] [.text "40"]]]

/-- The same card with the hashed class names the source actually selects,
including the price-left section the price lookup needs. -/
def c9amdoc : Node :=
  .elem "div" [("class", "vertical-card_card__ab")] [
    .elem "div" [("class", "vertical-card_title__pMGg9")] [.text "Potato 1kg"],
    .elem "div" [("class", "vertical-card_price__OEmV3")] [
      .elem "div" [("class", "vertical-card_price-left__1ecs8")] [
        .elem "section" [] [
          .elem "span" [("class", "vertical-card_amount__80Zwk")] [.text "40"]]]]]

/-- Two vertical cards with the same title. -/
def c2doc : Node :=
  .elem "div" [] [
    .elem "div" [("class", "vertical-card_title__pMGg9")] [.text "Potato"],
    .elem "div" [("class", "vertical-card_title__pMGg9")] [.text "Potato"]]

/-- A DMart card whose amount text has three decimal places. -/
def c6doc : Node :=
  .elem "div" [("class", "vertical-card_card__ab")] [
    .elem "div" [("class", "vertical-card_title__pMGg9")] [.text "Potato 1kg"],
    .elem "div" [("class", "vertical-card_price__OEmV3")] [
      .elem "div" [("class", "vertical-card_price-left__1ecs8")] [
        .elem "section" [] [
          .elem "span" [("class", "vertical-card_amount__80Zwk")] [.text "40.555"]]]]]

/-- A DMart vertical-card title with no price structure at all. -/
def d10doc : Node :=
  .elem "div" [] [
    .elem "div" [("class", "vertical-card_title__pMGg9")] [.text "Potato 1kg"]]

/-- A JioMart product card without any price text. -/
def jdoc10 : Node :=
  .elem "div" [("class", "product-card")] [
    .elem "div" [("class", "product-title")] [.text "Amul Butter 500g"]]

/-- A JioMart product card with one price. -/
def jdoc6 : Node :=
  .elem "div" [("class", "product-card")] [
    .elem "div" [("class", "product-title")] [.text "Amul Butter 500g"],
    .elem "div" [("class", "price")] [.text "₹45.5"]]

/-- A Zepto product image next to a price. -/
def zdoc : Node :=
  .elem "div" [] [
    .elem "img" [("alt", "Amul Butter 500g")] [],
    .text "₹40"]

/-- The Swiggy document whose strategy 2 reaches the undeclared-variable
assignment: a product name line followed by a price line. -/
def c5doc : Node :=
  .elem "div" [] [.text "Fresh Tomatoes Pack\n₹40"]

def c5raw : SwiggyRaw := ⟨c5doc, none, none, none⟩

/-- A state blob holding exactly one product under searchPLV2.data.items. -/
def swiggyBlobOf (nm : String) (price : JsNum) : JVal :=
  .obj [("searchPLV2", .obj [("data", .obj [("items",
    .arr [.obj [("name", .str nm), ("price", .num price)]])])])]

/-- Tier-1-shaped DOM noise: a data-testid product card. -/
def c1dom : Node :=
  .elem "div" [("data-testid", "product-card-1")] [
    .elem "span" [("class", "title")] [.text "Noise Product One"],
    .elem "span" [] [.text "₹40"]]

def c1raw : SwiggyRaw :=
  ⟨c1dom, some (.ok (swiggyBlobOf "Blob Product" ⟨25, 1⟩)), none, none⟩

/-- A 120-character address string. -/
def longAddr : String := String.mk (List.replicate 120 (Char.ofNat 97))

def c7blob : JVal := .obj [("userLocation", .obj [("address", .str longAddr)])]

def c7raw : SwiggyRaw := ⟨emptyDom, none, some (.ok c7blob), none⟩

/-! ## Claim C3: the price parser contract -/

/-- Claim C3 counterexample: the spec scenario parsePrice of the string
rupee-1,234.50 equal to 1234.5 is false: the capture group admits only one
separator group, so the match is 1,234 and the result is 1234. -/
theorem extractPrice_comma_decimal_counterexample :
    (extractPrice "₹1,234.50").map JsNum.val = some 1234 ∧
    (1234 : ℚ) ≠ 1234.5 := by
  constructor
  · have h : extractPrice "₹1,234.50" = some ⟨123400, 100⟩ := by decide
    rw [h]
    simp only [Option.map]
    norm_num [JsNum.val]
  · norm_num

/-- Claim C3 amended: extractPrice strips thousands separators from the captured
substring, parses it, rounds to 2 decimal places and returns null when no
numeric substring matches, never throwing; but the capture stops after one
separator group, so the rupee-1,234.50 scenario yields 1234, not 1234.5;
the no-match scenario yields null; and every returned value is
non-negative with at most 2 decimal places. -/
theorem extractPrice_contract_amended :
    (extractPrice "₹1,234.50").map JsNum.val = some 1234 ∧
    extractPrice "no price here" = none ∧
    ∀ s x, extractPrice s = some x →
      0 ≤ x.val ∧ ∃ n : ℤ, x.val = (n : ℚ) / 100 := by
  refine ⟨?_, by decide, ?_⟩
  · have h : extractPrice "₹1,234.50" = some ⟨123400, 100⟩ := by decide
    rw [h]
    simp only [Option.map]
    norm_num [JsNum.val]
  · intro s x h
    obtain ⟨h1, h2⟩ := extractPrice_spec s x h
    exact twoDecimal_of x h1 h2

/-- Witness for the amended extractPrice contract at a concrete input. -/
theorem extractPrice_contract_witness :
    0 ≤ JsNum.val ⟨777, 100⟩ ∧
    ∃ n : ℤ, JsNum.val ⟨777, 100⟩ = (n : ℚ) / 100 :=
  extractPrice_contract_amended.2.2 "₹7.77" ⟨777, 100⟩ (by decide)

/-! ## Claim C4: the report summary invariant -/

lemma totalFoldAux : ∀ (l : List ApiEntry) (n : Nat),
    l.foldl (fun sum site =>
      sum + (if site.products.length = 0 then 0 else site.products.length)) n =
    n + (l.map (fun e => e.products.length)).sum := by
  intro l
  induction l with
  | nil => intro n; simp
  | cons e tl ih =>
    intro n
    rw [List.foldl_cons, ih, List.map_cons, List.sum_cons]
    split <;> omega

/-- Claim C4: in every assembled job result, summary.totalProducts equals the
sum of the products lengths over the data entries. -/
theorem report_totalProducts_invariant (results : List OrchResult) :
    (mkJobResult results).summary.totalProducts =
      ((mkJobResult results).data.map (fun e => e.products.length)).sum := by
  simp only [mkJobResult]
  rw [totalFoldAux]
  omega

/-! ## Claim C8: site routing -/

/-- Claim C8: a batch of a DMart file, a Zepto file and an unrecognized file, of
any content, yields exactly the DMart and Zepto results in order; the
unknown file maps to null and does not abort the batch. -/
theorem site_routing_batch (f1 f2 f3 : HtmlFile)
    (h1 : f1.name = "dmart-x.html") (h2 : f2.name = "zepto-y.html")
    (h3 : f3.name = "unknown-z.html") :
    (extractDataFromAllFiles [f1, f2, f3]).map SiteResult.website =
      ["DMart", "Zepto"] ∧
    (extractDataFromAllFiles [f1, f2, f3]).length = 2 ∧
    extractDataFromFile f3 = none := by
  obtain ⟨n1, d1, p1, l1, a1⟩ := f1
  obtain ⟨n2, d2, p2, l2, a2⟩ := f2
  obtain ⟨n3, d3, p3, l3, a3⟩ := f3
  simp only at h1 h2 h3
  subst h1
  subst h2
  subst h3
  exact ⟨rfl, rfl, rfl⟩

/-- Witness for the site routing theorem at concrete files. -/
theorem site_routing_batch_witness :
    (extractDataFromAllFiles
      [⟨"dmart-x.html", emptyDom, none, none, none⟩,
       ⟨"zepto-y.html", emptyDom, none, none, none⟩,
       ⟨"unknown-z.html", emptyDom, none, none, none⟩]).map SiteResult.website =
      ["DMart", "Zepto"] ∧
    (extractDataFromAllFiles
      [⟨"dmart-x.html", emptyDom, none, none, none⟩,
       ⟨"zepto-y.html", emptyDom, none, none, none⟩,
       ⟨"unknown-z.html", emptyDom, none, none, none⟩]).length = 2 ∧
    extractDataFromFile ⟨"unknown-z.html", emptyDom, none, none, none⟩ = none :=
  site_routing_batch _ _ _ rfl rfl rfl

/-! ## Claim C9: the DMart card scenario -/

/-- Claim C9 counterexample: the scenario HTML uses the class names
vertical-card_title__x, vertical-card_price__y, vertical-card_amount__z,
but the source selects the exact hashed names, so extraction yields no
product instead of the expected one. -/
theorem dmart_scenario_class_names_counterexample :
    (extractFromDmart c9doc "dmart-test.html").products = [] := by decide

/-- Claim C9 amended: with the hashed class names the source selects (title
pMGg9 in a card ancestor, price OEmV3 holding price-left 1ecs8, a
non-strike section and amount 80Zwk), the card yields exactly one product
named Potato 1kg with price 40, no mrp, website DMart. -/
theorem dmart_card_scenario_amended :
    (extractFromDmart c9amdoc "dmart-test.html").products =
      [⟨"Potato 1kg", PVal.num ⟨40, 1⟩, PVal.null, "DMart"⟩] ∧
    JsNum.val ⟨40, 1⟩ = 40 := by
  constructor
  · decide
  · norm_num [JsNum.val]

/-! ## Claim C2: the dedup invariant -/

/-- Claim C2 counterexample: the DMart vertical-card loop pushes without any
duplicate check, so two same-titled cards yield two products with the very
same name. -/
theorem dmart_duplicate_names_counterexample :
    (extractFromDmart c2doc "dmart-dup.html").products.map Product.name =
      ["Potato", "Potato"] ∧
    ¬ (extractFromDmart c2doc "dmart-dup.html").products.Pairwise
        (fun a b => sTrim (sLower a.name) ≠ sTrim (sLower b.name)) := by
  constructor
  · decide
  · decide

/-- Claim C2 amended: the case-insensitive trimmed-name dedup invariant holds
for the Zepto and NaturesBasket extractors, whose final pass dedups on the
lowercased trimmed name; the JioMart extractor only guarantees pairwise
distinct exact names; the DMart and Swiggy extractors only dedup by exact
name in some tiers (the DMart vertical-card tier not at all). -/
theorem dedup_invariant_amended (root : Node) (f : String) :
    (extractFromZepto root f).products.Pairwise
      (fun a b => sTrim (sLower a.name) ≠ sTrim (sLower b.name)) ∧
    (extractFromNaturesBasket root f).products.Pairwise
      (fun a b => sTrim (sLower a.name) ≠ sTrim (sLower b.name)) ∧
    (extractFromJioMart root f).products.Pairwise
      (fun a b => a.name ≠ b.name) := by
  refine ⟨?_, ?_, jio_names root f⟩
  · obtain ⟨l, hl, _⟩ := zepto_underlying root f
    rw [hl]
    exact dedupPass_pairwise _ _ _
  · obtain ⟨l, hl, _⟩ := nb_underlying root f
    rw [hl]
    exact dedupPass_pairwise _ _ _

/-! ## Claim C6: price well-formedness -/

/-- Claim C6 counterexample: the DMart vertical-card price is raw parseFloat of
the amount text, so an amount of 40.555 yields a price with three decimal
places, not rounded to two. -/
theorem dmart_three_decimal_price_counterexample :
    (extractFromDmart c6doc "dmart-dec.html").products =
      [⟨"Potato 1kg", PVal.num ⟨40555, 1000⟩, PVal.null, "DMart"⟩] ∧
    ¬ ∃ n : ℤ, JsNum.val ⟨40555, 1000⟩ = (n : ℚ) / 100 := by
  constructor
  · decide
  · rintro ⟨n, hn⟩
    rw [JsNum.val] at hn
    push_cast at hn
    have h2 : (4055500 : ℚ) = (n : ℚ) * 1000 := by
      field_simp at hn
      linarith
    have h3 : (4055500 : ℤ) = n * 1000 := by exact_mod_cast h2
    omega

/-- Claim C6 amended: every product of the JioMart, NaturesBasket and Zepto
extractors has a null-or-well-formed price and mrp (non-negative, at most
2 decimal places), because those prices go through extractPrice; the DMart
extractor (raw parseFloat) and the Swiggy structured-data tier (values
copied from the blob) do not guarantee this. -/
theorem price_wellformed_jio_nb_zepto (root : Node) (f : String) :
    (∀ p ∈ (extractFromJioMart root f).products, pvalWf p.price ∧ pvalWf p.mrp) ∧
    (∀ p ∈ (extractFromNaturesBasket root f).products, pvalWf p.price ∧ pvalWf p.mrp) ∧
    (∀ p ∈ (extractFromZepto root f).products, pvalWf p.price ∧ pvalWf p.mrp) := by
  refine ⟨jio_wf root f, ?_, ?_⟩
  · intro p hp
    obtain ⟨l, hl, hpos⟩ := nb_underlying root f
    rw [hl] at hp
    obtain ⟨⟨x, heq, h1, h2⟩, hmrp⟩ := posInv_dedup hpos p hp
    exact ⟨Or.inr ⟨x, heq, twoDecimal_of x (le_of_lt h1) h2⟩, hmrp⟩
  · intro p hp
    obtain ⟨l, hl, hpos⟩ := zepto_underlying root f
    rw [hl] at hp
    obtain ⟨⟨x, heq, h1, h2⟩, hmrp⟩ := posInv_dedup hpos p hp
    exact ⟨Or.inr ⟨x, heq, twoDecimal_of x (le_of_lt h1) h2⟩, hmrp⟩

/-- Witness for the price well-formedness theorem at a concrete JioMart
product. -/
theorem price_wellformed_witness :
    pvalWf (Product.mk "Amul Butter 500g" (PVal.num ⟨4550, 100⟩) PVal.null
      "JioMart").price ∧
    pvalWf (Product.mk "Amul Butter 500g" (PVal.num ⟨4550, 100⟩) PVal.null
      "JioMart").mrp :=
  (price_wellformed_jio_nb_zepto jdoc6 "jiomart-w.html").1
    ⟨"Amul Butter 500g", PVal.num ⟨4550, 100⟩, PVal.null, "JioMart"⟩ (by decide)

/-! ## Claim C10: mandatory positive prices for Zepto and NaturesBasket -/

/-- Claim C10: every Zepto and NaturesBasket product carries a strictly positive
numeric price (candidates without a resolvable price are dropped), while
the DMart and JioMart extractors can emit products with a null price. -/
theorem zepto_nb_positive_prices (root : Node) (f : String) :
    (∀ p ∈ (extractFromZepto root f).products,
      ∃ x, p.price = PVal.num x ∧ 0 < x.val) ∧
    (∀ p ∈ (extractFromNaturesBasket root f).products,
      ∃ x, p.price = PVal.num x ∧ 0 < x.val) ∧
    (extractFromDmart d10doc "dmart-p.html").products.map Product.price =
      [PVal.null] ∧
    (extractFromJioMart jdoc10 "jiomart-p.html").products.map Product.price =
      [PVal.null] := by
  refine ⟨?_, ?_, by decide, by decide⟩
  · intro p hp
    obtain ⟨l, hl, hpos⟩ := zepto_underlying root f
    rw [hl] at hp
    obtain ⟨⟨x, heq, h1, h2⟩, _⟩ := posInv_dedup hpos p hp
    exact ⟨x, heq, val_pos_of x h1 h2⟩
  · intro p hp
    obtain ⟨l, hl, hpos⟩ := nb_underlying root f
    rw [hl] at hp
    obtain ⟨⟨x, heq, h1, h2⟩, _⟩ := posInv_dedup hpos p hp
    exact ⟨x, heq, val_pos_of x h1 h2⟩

/-- Witness for the positive-price theorem at a concrete Zepto product. -/
theorem zepto_nb_positive_prices_witness :
    ∃ x, (Product.mk "Amul Butter 500g" (PVal.num ⟨4000, 100⟩) PVal.null
      "Zepto").price = PVal.num x ∧ 0 < x.val :=
  (zepto_nb_positive_prices zdoc "zepto-w.html").1
    ⟨"Amul Butter 500g", PVal.num ⟨4000, 100⟩, PVal.null, "Zepto"⟩ (by decide)

/-! ## Claim C7: the location bound -/

/-- Claim C7 counterexample: the Swiggy structured-blob location path returns
the address of the state blob without any length check, so a 120-character
address becomes the location, violating the under-100-characters bound. -/
theorem swiggy_blob_location_length_counterexample :
    extractFromSwiggy c7raw "swiggy-loc.html" =
      .ok { website := "Swiggy", location := some longAddr, products := [],
            filename := "swiggy-loc.html" } ∧
    ¬ sLen longAddr < 100 := by
  exact ⟨rfl, by decide⟩

/-- Claim C7 amended: for the DMart, JioMart, NaturesBasket and Zepto extractors
the location is null or a non-empty string of fewer than 100 characters;
the Swiggy structured-blob path returns the blob value unchecked and can
break the bound. -/
theorem location_bound_dom_extractors (root : Node) (f : String) :
    locWf (extractFromDmart root f).location ∧
    locWf (extractFromJioMart root f).location ∧
    locWf (extractFromNaturesBasket root f).location ∧
    locWf (extractFromZepto root f).location := by
  exact ⟨dmartLoc_wf root, locFromSelectors_wf root _, locFromSelectors_wf root _,
    locFromSelectors_wf root _⟩

/-! ## Claim C5: error degradation -/

/-- Claim C5 (code bug): extractFromSwiggy throws a ReferenceError on a document whose
strategy 2 finds a name line above a price line: the strategy assigns to
the undeclared variables price and mrp in a strict-mode module.  The
claim that every extract function returns a SiteResult without throwing is
violated by the code at this input. -/
theorem swiggy_strategy2_throws_on_failing_input :
    extractFromSwiggy c5raw "swiggy-test.html" =
      Except.error JsError.refError := rfl

/-! ## Claim C1: tier ordering of extractFromSwiggy -/

/-- Claim C1 counterexample: with a valid structured-data blob holding one
product and tier-1-shaped DOM noise, the result contains the noise product
first and the blob product last: the structured-data tier runs after the
DOM tiers and does not preempt them. -/
theorem swiggy_tier_order_counterexample :
    extractFromSwiggy c1raw "swiggy-x.html" =
      .ok { website := "Swiggy", location := none,
            products :=
              [⟨"Noise Product One", PVal.num ⟨4000, 100⟩, PVal.null, "Swiggy"⟩,
               ⟨"Blob Product", PVal.num ⟨25, 1⟩, PVal.null, "Swiggy"⟩],
            filename := "swiggy-x.html" } ∧
    ["Noise Product One", "Blob Product"] ≠ ["Blob Product"] := by
  exact ⟨rfl, by decide⟩

lemma blob_item_push (products : List Product) (nm : String) (pr : JsNum)
    (hname : nm ≠ "") (hprice : pr.num ≠ 0)
    (hnew : ∀ p ∈ products, p.name ≠ nm) :
    addBlobItems products [.obj [("name", .str nm), ("price", .num pr)]] =
      .ok (products ++ [⟨nm, PVal.num pr, PVal.null, "Swiggy"⟩]) := by
  have hn : jGet (.obj [("name", JVal.str nm), ("price", JVal.num pr)]) "name" =
      some (.str nm) := by
    simp [jGet, List.lookup]
  have hp : jGet (.obj [("name", JVal.str nm), ("price", JVal.num pr)]) "price" =
      some (.num pr) := by
    simp +decide [jGet, List.lookup]
  have hany : (products.any fun p => p.name = nm) = false := by
    simp only [List.any_eq_false, decide_eq_true_eq]
    exact hnew
  simp only [addBlobItems, hn, hp]
  rw [if_pos (by simp [jTruthy, hname])]
  simp only [hany, Bool.not_false, if_pos]
  simp +decide [addBlobItems, jPriceChain, jMrpChain, jFirstTruthy, jGet,
    List.lookup, jTruthy, hprice, pvalOfJVal]

lemma swiggyBlobOf_strat3 (products : List Product) (nm : String) (pr : JsNum)
    (hname : nm ≠ "") (hprice : pr.num ≠ 0)
    (hnew : ∀ p ∈ products, p.name ≠ nm) :
    swiggyStrat3 products (some (.ok (swiggyBlobOf nm pr))) =
      products ++ [⟨nm, PVal.num pr, PVal.null, "Swiggy"⟩] := by
  have h1 : stepItems products (swiggyBlobOf nm pr) "searchPLV2" =
      .ok (products ++ [⟨nm, PVal.num pr, PVal.null, "Swiggy"⟩]) := by
    simp only [stepItems, swiggyBlobOf]
    simp +decide [jGet, List.lookup, jGetOpt, jTruthy]
    exact blob_item_push products nm pr hname hprice hnew
  have h2 : ∀ ps, stepItems ps (swiggyBlobOf nm pr) "categoryListingV2" = .ok ps := by
    intro ps
    simp +decide [stepItems, swiggyBlobOf, jGet, List.lookup, jTruthy]
  have h3 : ∀ ps, stepInstamart ps (swiggyBlobOf nm pr) = .ok ps := by
    intro ps
    simp +decide [stepInstamart, swiggyBlobOf, jGet, List.lookup, jGetOpt, jTruthy]
  simp only [swiggyStrat3, h1, h2, h3, Except.bind, bind]
  simp

/-- Claim C1 amended: in extractFromSwiggy the structured-data walk is the last
strategy, not the first, and no tier preempts another: when the DOM
strategies do not throw and the blob holds one product whose non-empty
name is new and whose price is a truthy number, the result is the DOM-tier
products followed by the blob product (deduplication by exact name is the
only interaction between tiers; only the deep recursive JSON walk is
skipped once any product was found). -/
theorem swiggy_structured_tier_amended
    (dom : Node) (f nm : String) (pr : JsNum)
    (ls al : Option (Except String JVal))
    (hthrow : swiggyTier2Throws dom (swiggyTier1 dom) = false)
    (hname : nm ≠ "")
    (hprice : pr.num ≠ 0)
    (hnew : ∀ p ∈ swiggyTier1 dom, p.name ≠ nm) :
    extractFromSwiggy ⟨dom, some (.ok (swiggyBlobOf nm pr)), ls, al⟩ f =
      .ok { website := "Swiggy",
            location := extractLocationFromSwiggy
              ⟨dom, some (.ok (swiggyBlobOf nm pr)), ls, al⟩,
            products := swiggyTier1 dom ++
              [⟨nm, PVal.num pr, PVal.null, "Swiggy"⟩],
            filename := f } := by
  simp only [extractFromSwiggy, hthrow]
  rw [swiggyBlobOf_strat3 (swiggyTier1 dom) nm pr hname hprice hnew]
  simp

/-- Witness for the amended tier-order theorem: an empty document and a
blob with one product yield exactly that product. -/
theorem swiggy_structured_tier_witness :
    extractFromSwiggy
      ⟨emptyDom, some (.ok (swiggyBlobOf "Blob Product" ⟨25, 1⟩)), none, none⟩
      "swiggy-w.html" =
    .ok { website := "Swiggy",
          location := extractLocationFromSwiggy
            ⟨emptyDom, some (.ok (swiggyBlobOf "Blob Product" ⟨25, 1⟩)), none, none⟩,
          products := swiggyTier1 emptyDom ++
            [⟨"Blob Product", PVal.num ⟨25, 1⟩, PVal.null, "Swiggy"⟩],
          filename := "swiggy-w.html" } :=
  swiggy_structured_tier_amended emptyDom "swiggy-w.html" "Blob Product" ⟨25, 1⟩
    none none (by decide) (by decide) (by decide)
    (by
      intro p hp
      have h : swiggyTier1 emptyDom = [] := rfl
      rw [h] at hp
      simp at hp)

end HtmlSel
